import Mathlib

/-!
Verification of the proxy-selector repository's core decision logic.

The definitions below are shallow embeddings of the Python source under
`src/scripts/`:
- `QUALITY_LEVELS`, `should_send_alert`, `OutboundPlan.priority`,
  `dedupe_preserve_order` from `src/scripts/modules/config.py`;
- the expectation matcher `matchDict` (`PlaywrightProbe._match_dict`) and the
  classifier `check_quality` (`PlaywrightProbe._check_quality`) from
  `src/scripts/modules/probe.py` (the CSS-selector/HTML engine, an external
  collaborator, is abstracted as an oracle carried by the page signals);
- `should_skip_suboptimal` from `src/scripts/modules/state.py` (wall-clock
  time and ISO-timestamp parsing are abstracted as parameters);
- the older, quality-unaware orchestration loop of
  `src/scripts/proxy_manager.py` (`ProbeManager.run`,
  `_recover_with_candidates`, `_promote_outbound`) as an error-propagation
  model;
- the quality-aware candidate search and blocked-branch orchestration that
  the repository's newer generation uses is not present in the snapshot
  (only its building blocks in `modules/` are); those are modelled from the
  spec, marked `Modelled from the spec:` below.
-/

/-! ## Alert policy (`src/scripts/modules/config.py`) -/

/-- Quality-level table of `config.py`: name to ordinal, higher = worse. -/
def QUALITY_LEVELS : List (String × Nat) :=
  [("optimal", 0), ("suboptimal", 1), ("blocked", 2)]

/-- `QUALITY_LEVELS.get(name, default)` of the Python dict. -/
def qualityLevel (name : String) (default : Nat) : Nat :=
  (QUALITY_LEVELS.lookup name).getD default

/-- `should_send_alert` of `config.py`: current level (default 0) at least
the threshold level (default 1). -/
def should_send_alert (current_quality alert_level : String) : Bool :=
  qualityLevel current_quality 0 ≥ qualityLevel alert_level 1

/-! ## Outbound plan resolution (`src/scripts/modules/config.py`) -/

/-- Recursion worker for `dedupe_preserve_order`; `seen` is the set of
already-emitted items (a list, queried only for membership, mirroring the
Python `set`). -/
def dedupeAux (seen : List String) : List String → List String
  | [] => []
  | x :: xs => if x ∈ seen then dedupeAux seen xs else x :: dedupeAux (x :: seen) xs

/-- `dedupe_preserve_order` of `config.py`: drop repeated items, keeping the
first occurrence, preserving order. -/
def dedupe_preserve_order (items : List String) : List String :=
  dedupeAux [] items

/-- `OutboundPlan` of `config.py`. -/
structure OutboundPlan where
  candidates : List String := []
  tags : List String := []
  replace : Bool := false

/-- `OutboundPlan.priority`: explicit candidates, then tags, then (unless
`replace`) the caller's defaults, de-duplicated. -/
def OutboundPlan.priority (plan : OutboundPlan) (defaults : List String) : List String :=
  dedupe_preserve_order
    (plan.candidates ++ plan.tags ++ (if plan.replace then [] else defaults))

/-! ### Lemmas about `dedupe_preserve_order` -/

theorem mem_dedupeAux {a : String} {seen l : List String} :
    a ∈ dedupeAux seen l ↔ a ∈ l ∧ a ∉ seen := by
  induction l generalizing seen with
  | nil => simp [dedupeAux]
  | cons x xs ih =>
    by_cases hx : x ∈ seen
    · rw [dedupeAux, if_pos hx, ih]
      constructor
      · rintro ⟨h1, h2⟩
        exact ⟨List.mem_cons_of_mem _ h1, h2⟩
      · rintro ⟨h1, h2⟩
        rcases List.mem_cons.1 h1 with rfl | h1
        · exact absurd hx h2
        · exact ⟨h1, h2⟩
    · rw [dedupeAux, if_neg hx]
      constructor
      · intro h
        rcases List.mem_cons.1 h with rfl | h
        · exact ⟨List.mem_cons_self _ _, hx⟩
        · obtain ⟨h1, h2⟩ := ih.1 h
          refine ⟨List.mem_cons_of_mem _ h1, fun hs => h2 (List.mem_cons_of_mem _ hs)⟩
      · rintro ⟨h1, h2⟩
        rcases List.mem_cons.1 h1 with rfl | h1
        · exact List.mem_cons_self _ _
        · by_cases hax : a = x
          · subst hax
            exact List.mem_cons_self _ _
          · refine List.mem_cons_of_mem _ (ih.2 ⟨h1, fun hs => ?_⟩)
            rcases List.mem_cons.1 hs with h | h
            · exact hax h
            · exact h2 h

theorem dedupeAux_sublist (seen l : List String) : (dedupeAux seen l).Sublist l := by
  induction l generalizing seen with
  | nil => simp [dedupeAux]
  | cons x xs ih =>
    by_cases hx : x ∈ seen
    · simp only [dedupeAux, if_pos hx]
      exact (ih seen).cons x
    · simp only [dedupeAux, if_neg hx]
      exact (ih (x :: seen)).cons₂ x

theorem dedupeAux_nodup (seen l : List String) : (dedupeAux seen l).Nodup := by
  induction l generalizing seen with
  | nil => simp [dedupeAux]
  | cons x xs ih =>
    by_cases hx : x ∈ seen
    · simpa only [dedupeAux, if_pos hx] using ih seen
    · simp only [dedupeAux, if_neg hx, List.nodup_cons]
      refine ⟨fun hmem => ?_, ih (x :: seen)⟩
      exact (mem_dedupeAux.1 hmem).2 (List.mem_cons_self x seen)

theorem dedupeAux_eq_self {seen l : List String} (hl : l.Nodup)
    (hd : ∀ a ∈ l, a ∉ seen) : dedupeAux seen l = l := by
  induction l generalizing seen with
  | nil => simp [dedupeAux]
  | cons x xs ih =>
    have hx : x ∉ seen := hd x (List.mem_cons_self x xs)
    simp only [dedupeAux, if_neg hx]
    congr 1
    refine ih (List.nodup_cons.1 hl).2 ?_
    intro a ha hs
    rcases List.mem_cons.1 hs with rfl | hs
    · exact (List.nodup_cons.1 hl).1 ha
    · exact hd a (List.mem_cons_of_mem _ ha) hs

theorem dedupe_idem (l : List String) :
    dedupe_preserve_order (dedupe_preserve_order l) = dedupe_preserve_order l := by
  unfold dedupe_preserve_order
  exact dedupeAux_eq_self (dedupeAux_nodup [] l) (by simp)

theorem dedupeAux_congr (s t l : List String)
    (h : ∀ a, a ∈ s ↔ a ∈ t) : dedupeAux s l = dedupeAux t l := by
  induction l generalizing s t with
  | nil => rfl
  | cons x xs ih =>
    by_cases hx : x ∈ s
    · rw [dedupeAux, if_pos hx, dedupeAux, if_pos ((h x).1 hx)]
      exact ih s t h
    · rw [dedupeAux, if_neg hx, dedupeAux, if_neg (fun hc => hx ((h x).2 hc))]
      congr 1
      refine ih (x :: s) (x :: t) (fun a => ?_)
      simp only [List.mem_cons, h a]

theorem dedupeAux_cons_seen (x : String) (seen l : List String) :
    dedupeAux (x :: seen) l = dedupeAux seen (l.filter (fun a => a ≠ x)) := by
  induction l generalizing seen with
  | nil => rfl
  | cons y ys ih =>
    by_cases hyx : y = x
    · subst hyx
      have hmem : y ∈ y :: seen := List.mem_cons_self _ _
      rw [dedupeAux, if_pos hmem, List.filter_cons]
      have hp : (decide (y ≠ y)) = false := by simp
      rw [hp]
      simp only [Bool.false_eq_true, if_false]
      exact ih seen
    · have hp : (decide (y ≠ x)) = true := by simp [hyx]
      rw [List.filter_cons, hp]
      simp only [if_true]
      by_cases hy : y ∈ seen
      · have h1 : y ∈ x :: seen := List.mem_cons_of_mem _ hy
        rw [dedupeAux, if_pos h1, dedupeAux, if_pos hy]
        exact ih seen
      · have h1 : y ∉ x :: seen := by
          intro hc
          rcases List.mem_cons.1 hc with h | h
          · exact hyx h
          · exact hy h
        rw [dedupeAux, if_neg h1, dedupeAux, if_neg hy]
        congr 1
        have hperm : dedupeAux (y :: x :: seen) ys = dedupeAux (x :: y :: seen) ys := by
          refine dedupeAux_congr _ _ _ (fun a => ?_)
          simp only [List.mem_cons]
          tauto
        rw [hperm]
        exact ih (y :: seen)

theorem dedupe_cons_first (x : String) (l : List String) :
    dedupe_preserve_order (x :: l) =
      x :: dedupe_preserve_order (l.filter (fun a => a ≠ x)) := by
  unfold dedupe_preserve_order
  rw [dedupeAux, if_neg (List.not_mem_nil x)]
  congr 1
  exact dedupeAux_cons_seen x [] l

/-- C8: `OutboundPlan.priority` returns explicit candidates, then tags, then
(only when `replace` is false) the defaults, concatenated and de-duplicated
with the first occurrence kept and order preserved (the result is a
duplicate-free sublist of the concatenation with the same members, and
removing a head occurrence erases its later duplicates); the resolution is
idempotent, and `priority(candidates=["a","b"], tags=["a"], defaults=["c"],
replace=false) = ["a","b","c"]`. -/
theorem priority_spec :
    (∀ (plan : OutboundPlan) (defaults : List String),
      (plan.priority defaults).Nodup ∧
      (plan.priority defaults).Sublist
        (plan.candidates ++ plan.tags ++ (if plan.replace then [] else defaults)) ∧
      (∀ x, x ∈ plan.priority defaults ↔
        x ∈ plan.candidates ++ plan.tags ++ (if plan.replace then [] else defaults)) ∧
      dedupe_preserve_order (plan.priority defaults) = plan.priority defaults) ∧
    (∀ (x : String) (l : List String),
      dedupe_preserve_order (x :: l) =
        x :: dedupe_preserve_order (l.filter (fun a => a ≠ x))) ∧
    OutboundPlan.priority ⟨["a", "b"], ["a"], false⟩ ["c"] = ["a", "b", "c"] := by
  refine ⟨fun plan defaults => ⟨?_, ?_, ?_, ?_⟩, dedupe_cons_first, by decide⟩
  · exact dedupeAux_nodup _ _
  · exact dedupeAux_sublist _ _
  · intro x
    unfold OutboundPlan.priority dedupe_preserve_order
    rw [mem_dedupeAux]
    simp
  · exact dedupe_idem _

/-- C7: `should_send_alert(q, t)` holds iff the ordinal of `q` (unknown
defaults to 0) is at least the ordinal of `t` (unknown defaults to 1); in
particular an unknown current quality never alerts against the default
suboptimal threshold, an unknown threshold alerts from suboptimal up, and
`should_send_alert("blocked","suboptimal") = true`,
`should_send_alert("optimal","blocked") = false`. -/
theorem should_send_alert_spec :
    (∀ q t, should_send_alert q t = true ↔ qualityLevel q 0 ≥ qualityLevel t 1) ∧
    (∀ q, (QUALITY_LEVELS.lookup q) = none →
      should_send_alert q "suboptimal" = false ∧
      should_send_alert "suboptimal" q = true) ∧
    should_send_alert "blocked" "suboptimal" = true ∧
    should_send_alert "optimal" "blocked" = false := by
  refine ⟨fun q t => ?_, fun q hq => ?_, by decide, by decide⟩
  · simp [should_send_alert]
  · constructor
    · simp only [should_send_alert, qualityLevel, hq, Option.getD_none]
      decide
    · simp only [should_send_alert, qualityLevel, hq, Option.getD_none]
      decide

/-- Witness for C7 at a concrete unknown quality name. -/
theorem should_send_alert_spec_witness :
    should_send_alert "mystery" "suboptimal" = false ∧
    should_send_alert "suboptimal" "mystery" = true :=
  should_send_alert_spec.2.1 "mystery" (by decide)

/-! ## Expectation matcher (`src/scripts/modules/probe.py`) -/

/-- A configuration value that is either a scalar or a list, mirroring the
Python normalization `x if isinstance(x, list) else [x]`. -/
inductive OneOrMany (α : Type) where
  | single (a : α)
  | many (l : List α)
  deriving DecidableEq

/-- The normalized list view of a scalar-or-list value. -/
def OneOrMany.toList {α : Type} : OneOrMany α → List α
  | .single a => [a]
  | .many l => l

/-- `MatchResult` of `probe.py`. -/
structure MatchResult where
  matched : Bool
  reason : String
  deriving DecidableEq

/-- A match-criteria dictionary as consumed by `_match_dict`: the four keys
the matcher checks (`status`, `title`, `selector`, `contains`), the
`selector` companion key `text` that `_match_dict` forwards to the selector
engine, and the `body` key that `Expectation.to_dict` emits but the matcher
never reads.  A `none` field is an absent key.  Selector values are kept
opaque (the string/object forms and the HTML engine live behind the
`selEval` oracle of the page signals). -/
structure MatchConfig where
  status : Option (OneOrMany Int) := none
  title : Option (OneOrMany String) := none
  selector : Option String := none
  text : Option (OneOrMany String) := none
  contains : Option (OneOrMany String) := none
  body : Option String := none
  deriving DecidableEq

/-- Python dict truthiness for a match dictionary drawn from these keys:
non-empty iff some key is present. -/
def MatchConfig.isTruthy (c : MatchConfig) : Bool :=
  c.status.isSome || c.title.isSome || c.selector.isSome ||
    c.text.isSome || c.contains.isSome || c.body.isSome

/-- The rendered page's observed signals: HTTP status, title, extracted
plain text, and the CSS-selector engine (`_match_selector` applied to the
page's HTML document), abstracted as the oracle `selEval` because the HTML
parsing/selector engine is an external collaborator. -/
structure PageSignals where
  status : Option Int
  title : String
  text : String
  selEval : String → Option (OneOrMany String) → MatchResult

/-- Case-insensitive substring test, mirroring `a.lower() in b.lower()`
(lower-casing character-wise over the string's character list). -/
def substrCI (needle hay : String) : Bool :=
  decide (List.IsInfix (needle.toList.map Char.toLower) (hay.toList.map Char.toLower))

/-- Python `str()` of an optional status code (`None` when absent). -/
def statusRepr : Option Int → String
  | some n => toString n
  | none => "None"

/-- Failure result of the status check of `_match_dict`. -/
def statusFailReason (expected : List Int) (st : Option Int) : MatchResult :=
  ⟨false, "状态码不匹配: 期望 " ++ toString expected ++ ", 实际 " ++ statusRepr st⟩

/-- Failure result of the title check of `_match_dict`. -/
def titleFailReason (expected : List String) : MatchResult :=
  ⟨false, "标题不匹配: 期望包含 " ++ toString expected⟩

/-- Failure result of the contains check of `_match_dict`. -/
def containsFailReason (expected : List String) : MatchResult :=
  ⟨false, "文本不匹配: 期望包含 " ++ toString expected⟩

/-- The status check passes: key absent, or the observed status is a member
of the expected set (an absent observed status is never a member). -/
def statusPasses (cfg : MatchConfig) (sig : PageSignals) : Bool :=
  match cfg.status with
  | none => true
  | some sp => sig.status.elim false (fun st => decide (st ∈ sp.toList))

/-- The title check passes: key absent, or some expected title is a
case-insensitive substring of the observed title. -/
def titlePasses (cfg : MatchConfig) (sig : PageSignals) : Bool :=
  match cfg.title with
  | none => true
  | some tp => (tp.toList.find? (fun t => substrCI t sig.title)).isSome

/-- The selector check passes: key absent, or the selector engine matches
(the config's `text` key is forwarded to it). -/
def selectorPasses (cfg : MatchConfig) (sig : PageSignals) : Bool :=
  match cfg.selector with
  | none => true
  | some sv => (sig.selEval sv cfg.text).matched

/-- The contains check passes: key absent, or some expected string is a
case-insensitive substring of the extracted page text. -/
def containsPasses (cfg : MatchConfig) (sig : PageSignals) : Bool :=
  match cfg.contains with
  | none => true
  | some cp => (cp.toList.find? (fun t => substrCI t sig.text)).isSome

/-- Status check step of `_match_dict`: short-circuit failure carried in
`Except.error`, accumulated per-check success reasons in `Except.ok`. -/
def statusStep (cfg : MatchConfig) (sig : PageSignals) :
    Except MatchResult (List String) :=
  match cfg.status with
  | none => .ok []
  | some sp =>
    if statusPasses cfg sig then .ok ["status: " ++ statusRepr sig.status]
    else .error (statusFailReason sp.toList sig.status)

/-- Title check step of `_match_dict`. -/
def titleStep (cfg : MatchConfig) (sig : PageSignals)
    (prev : Except MatchResult (List String)) : Except MatchResult (List String) :=
  prev.bind fun rs =>
    match cfg.title with
    | none => .ok rs
    | some tp =>
      match tp.toList.find? (fun t => substrCI t sig.title) with
      | some t => .ok (rs ++ ["title: " ++ t])
      | none => .error (titleFailReason tp.toList)

/-- Selector check step of `_match_dict`: the engine's failure result is
returned verbatim, its success reason is recorded prefixed `selector:`. -/
def selectorStep (cfg : MatchConfig) (sig : PageSignals)
    (prev : Except MatchResult (List String)) : Except MatchResult (List String) :=
  prev.bind fun rs =>
    match cfg.selector with
    | none => .ok rs
    | some sv =>
      let r := sig.selEval sv cfg.text
      if r.matched then .ok (rs ++ ["selector:" ++ r.reason]) else .error r

/-- Contains check step of `_match_dict`. -/
def containsStep (cfg : MatchConfig) (sig : PageSignals)
    (prev : Except MatchResult (List String)) : Except MatchResult (List String) :=
  prev.bind fun rs =>
    match cfg.contains with
    | none => .ok rs
    | some cp =>
      match cp.toList.find? (fun t => substrCI t sig.text) with
      | some t => .ok (rs ++ ["contains:" ++ t])
      | none => .error (containsFailReason cp.toList)

/-- `_match_dict` of `probe.py`: the four checks run in source order status
→ title → selector → contains; the first failing check returns its failure;
when every configured check passes the per-check reasons are joined with a
semicolon (empty configuration joins nothing and matches). -/
def matchDict (cfg : MatchConfig) (sig : PageSignals) : MatchResult :=
  match containsStep cfg sig
      (selectorStep cfg sig (titleStep cfg sig (statusStep cfg sig))) with
  | .ok rs => ⟨true, String.intercalate ";" rs⟩
  | .error r => r

/-- The failure the status check would report (vacuous when unconfigured). -/
def statusFailResult (cfg : MatchConfig) (sig : PageSignals) : MatchResult :=
  match cfg.status with
  | some sp => statusFailReason sp.toList sig.status
  | none => ⟨true, ""⟩

/-- The failure the title check would report (vacuous when unconfigured). -/
def titleFailResult (cfg : MatchConfig) : MatchResult :=
  match cfg.title with
  | some tp => titleFailReason tp.toList
  | none => ⟨true, ""⟩

/-- The failure the selector check would report (vacuous when
unconfigured): the engine's own result. -/
def selectorFailResult (cfg : MatchConfig) (sig : PageSignals) : MatchResult :=
  match cfg.selector with
  | some sv => sig.selEval sv cfg.text
  | none => ⟨true, ""⟩

/-- The failure the contains check would report (vacuous when
unconfigured). -/
def containsFailResult (cfg : MatchConfig) : MatchResult :=
  match cfg.contains with
  | some cp => containsFailReason cp.toList
  | none => ⟨true, ""⟩

/-! ### Short-circuit lemmas for the matcher steps -/

theorem titleStep_error (cfg : MatchConfig) (sig : PageSignals) (r : MatchResult) :
    titleStep cfg sig (.error r) = .error r := rfl

theorem selectorStep_error (cfg : MatchConfig) (sig : PageSignals) (r : MatchResult) :
    selectorStep cfg sig (.error r) = .error r := rfl

theorem containsStep_error (cfg : MatchConfig) (sig : PageSignals) (r : MatchResult) :
    containsStep cfg sig (.error r) = .error r := rfl

theorem statusStep_pass {cfg : MatchConfig} {sig : PageSignals}
    (h : statusPasses cfg sig = true) : ∃ rs, statusStep cfg sig = .ok rs := by
  cases hs : cfg.status with
  | none => exact ⟨[], by simp [statusStep, hs]⟩
  | some sp =>
    exact ⟨["status: " ++ statusRepr sig.status], by simp [statusStep, hs, h]⟩

theorem statusStep_fail {cfg : MatchConfig} {sig : PageSignals}
    (h : statusPasses cfg sig = false) :
    statusStep cfg sig = .error (statusFailResult cfg sig) := by
  cases hs : cfg.status with
  | none =>
    simp only [statusPasses, hs] at h
    exact absurd h (by decide)
  | some sp =>
    simp [statusStep, statusFailResult, hs, h]

theorem titleStep_pass {cfg : MatchConfig} {sig : PageSignals}
    (h : titlePasses cfg sig = true) (rs : List String) :
    ∃ rs2, titleStep cfg sig (.ok rs) = .ok rs2 := by
  cases ht : cfg.title with
  | none => exact ⟨rs, by simp [titleStep, ht, Except.bind]⟩
  | some tp =>
    simp only [titlePasses, ht] at h
    obtain ⟨t, hf⟩ := Option.isSome_iff_exists.1 h
    exact ⟨rs ++ ["title: " ++ t], by simp [titleStep, ht, hf, Except.bind]⟩

theorem titleStep_fail {cfg : MatchConfig} {sig : PageSignals}
    (h : titlePasses cfg sig = false) (rs : List String) :
    titleStep cfg sig (.ok rs) = .error (titleFailResult cfg) := by
  cases ht : cfg.title with
  | none =>
    simp only [titlePasses, ht] at h
    exact absurd h (by decide)
  | some tp =>
    simp only [titlePasses, ht] at h
    have hf : tp.toList.find? (fun t => substrCI t sig.title) = none := by
      cases hfind : tp.toList.find? (fun t => substrCI t sig.title) with
      | none => rfl
      | some t => rw [hfind] at h; simp at h
    simp [titleStep, titleFailResult, ht, hf, Except.bind]

theorem selectorStep_pass {cfg : MatchConfig} {sig : PageSignals}
    (h : selectorPasses cfg sig = true) (rs : List String) :
    ∃ rs2, selectorStep cfg sig (.ok rs) = .ok rs2 := by
  cases hs : cfg.selector with
  | none => exact ⟨rs, by simp [selectorStep, hs, Except.bind]⟩
  | some sv =>
    simp only [selectorPasses, hs] at h
    exact ⟨rs ++ ["selector:" ++ (sig.selEval sv cfg.text).reason],
      by simp [selectorStep, hs, h, Except.bind]⟩

theorem selectorStep_fail {cfg : MatchConfig} {sig : PageSignals}
    (h : selectorPasses cfg sig = false) (rs : List String) :
    selectorStep cfg sig (.ok rs) = .error (selectorFailResult cfg sig) := by
  cases hs : cfg.selector with
  | none =>
    simp only [selectorPasses, hs] at h
    exact absurd h (by decide)
  | some sv =>
    simp only [selectorPasses, hs] at h
    simp [selectorStep, selectorFailResult, hs, h, Except.bind]

theorem containsStep_pass {cfg : MatchConfig} {sig : PageSignals}
    (h : containsPasses cfg sig = true) (rs : List String) :
    ∃ rs2, containsStep cfg sig (.ok rs) = .ok rs2 := by
  cases hc : cfg.contains with
  | none => exact ⟨rs, by simp [containsStep, hc, Except.bind]⟩
  | some cp =>
    simp only [containsPasses, hc] at h
    obtain ⟨t, hf⟩ := Option.isSome_iff_exists.1 h
    exact ⟨rs ++ ["contains:" ++ t], by simp [containsStep, hc, hf, Except.bind]⟩

theorem containsStep_fail {cfg : MatchConfig} {sig : PageSignals}
    (h : containsPasses cfg sig = false) (rs : List String) :
    containsStep cfg sig (.ok rs) = .error (containsFailResult cfg) := by
  cases hc : cfg.contains with
  | none =>
    simp only [containsPasses, hc] at h
    exact absurd h (by decide)
  | some cp =>
    simp only [containsPasses, hc] at h
    have hf : cp.toList.find? (fun t => substrCI t sig.text) = none := by
      cases hfind : cp.toList.find? (fun t => substrCI t sig.text) with
      | none => rfl
      | some t => rw [hfind] at h; simp at h
    simp [containsStep, containsFailResult, hc, hf, Except.bind]

/-- C6: `_match_dict` evaluates its checks in the fixed order status → title
→ selector → contains; the first failing check's failure is returned with
the later checks not consulted (the result is that check's failure whatever
the later fields hold); a configuration with zero configured checks returns
`matched = true` with an empty reason; and when every configured check
passes the result is a match. -/
theorem matchDict_spec :
    (∀ (cfg : MatchConfig) (sig : PageSignals), cfg.status = none → cfg.title = none →
      cfg.selector = none → cfg.contains = none → matchDict cfg sig = ⟨true, ""⟩) ∧
    (∀ (cfg : MatchConfig) (sig : PageSignals), statusPasses cfg sig = false →
      matchDict cfg sig = statusFailResult cfg sig) ∧
    (∀ (cfg : MatchConfig) (sig : PageSignals), statusPasses cfg sig = true →
      titlePasses cfg sig = false → matchDict cfg sig = titleFailResult cfg) ∧
    (∀ (cfg : MatchConfig) (sig : PageSignals), statusPasses cfg sig = true →
      titlePasses cfg sig = true → selectorPasses cfg sig = false →
      matchDict cfg sig = selectorFailResult cfg sig) ∧
    (∀ (cfg : MatchConfig) (sig : PageSignals), statusPasses cfg sig = true →
      titlePasses cfg sig = true → selectorPasses cfg sig = true →
      containsPasses cfg sig = false → matchDict cfg sig = containsFailResult cfg) ∧
    (∀ (cfg : MatchConfig) (sig : PageSignals), statusPasses cfg sig = true →
      titlePasses cfg sig = true → selectorPasses cfg sig = true →
      containsPasses cfg sig = true → (matchDict cfg sig).matched = true) := by
  refine ⟨?_, ?_, ?_, ?_, ?_, ?_⟩
  · intro cfg sig h1 h2 h3 h4
    simp [matchDict, statusStep, titleStep, selectorStep, containsStep,
      h1, h2, h3, h4, Except.bind, String.intercalate]
  · intro cfg sig h1
    rw [matchDict, statusStep_fail h1, titleStep_error, selectorStep_error,
      containsStep_error]
  · intro cfg sig h1 h2
    obtain ⟨rs, hss⟩ := statusStep_pass h1
    rw [matchDict, hss, titleStep_fail h2, selectorStep_error, containsStep_error]
  · intro cfg sig h1 h2 h3
    obtain ⟨rs, hss⟩ := statusStep_pass h1
    obtain ⟨rs2, hts⟩ := titleStep_pass h2 rs
    rw [matchDict, hss, hts, selectorStep_fail h3, containsStep_error]
  · intro cfg sig h1 h2 h3 h4
    obtain ⟨rs, hss⟩ := statusStep_pass h1
    obtain ⟨rs2, hts⟩ := titleStep_pass h2 rs
    obtain ⟨rs3, hses⟩ := selectorStep_pass h3 rs2
    rw [matchDict, hss, hts, hses, containsStep_fail h4]
  · intro cfg sig h1 h2 h3 h4
    obtain ⟨rs, hss⟩ := statusStep_pass h1
    obtain ⟨rs2, hts⟩ := titleStep_pass h2 rs
    obtain ⟨rs3, hses⟩ := selectorStep_pass h3 rs2
    obtain ⟨rs4, hcs⟩ := containsStep_pass h4 rs3
    rw [matchDict, hss, hts, hses, hcs]

/-- A concrete set of page signals used by the witnesses: status 200, a
fixed title and text, and a selector engine that matches exactly when no
text pattern accompanies the selector. -/
def sigDemo : PageSignals :=
  ⟨some 200, "Example Domain", "example text", fun s p =>
    match p with
    | none => ⟨true, "找到选择器: " ++ s⟩
    | some _ => ⟨false, "选择器未找到文本"⟩⟩

/-- Witness for C6: the empty configuration matches `sigDemo` with an empty
reason. -/
theorem matchDict_spec_witness : matchDict {} sigDemo = ⟨true, ""⟩ :=
  matchDict_spec.1 {} sigDemo rfl rfl rfl rfl

/-! ## Probe classifier (`src/scripts/modules/probe.py`) -/

/-- `Expectation` of `modules/config.py`, restricted to the fields the
classifier reads (`status`, `title`, `body` feed `to_dict`;
`fallback_expect` and `must_not` are raw match dictionaries; the unread
`text` and `captcha_keywords` fields are omitted). -/
structure Expectation where
  status : Option Int := none
  title : Option String := none
  body : Option String := none
  fallback_expect : Option MatchConfig := none
  must_not : Option MatchConfig := none

/-- `Expectation.to_dict`: emit the `status`, `title` and `body` keys, each
only when Python-truthy (present and non-zero / non-empty). -/
def Expectation.to_dict (e : Expectation) : MatchConfig :=
  { status :=
      match e.status with
      | some n => if n ≠ 0 then some (OneOrMany.single n) else none
      | none => none,
    title :=
      match e.title with
      | some t => if t ≠ "" then some (OneOrMany.single t) else none
      | none => none,
    selector := none,
    text := none,
    contains := none,
    body :=
      match e.body with
      | some b => if b ≠ "" then some b else none
      | none => none }

/-- `ProbeOutcome` of `modules/probe.py` (latency and the screenshot side
channel are not part of the classification result). -/
structure ProbeOutcome where
  ok : Bool
  reason : Option String := none
  status : Option Int := none
  quality : String := "optimal"
  deriving DecidableEq

/-- The forbidden (`must_not`) tier's hit, if any: the tier is present and
Python-truthy, and its dictionary matches the page. -/
def forbiddenHit (e : Expectation) (sig : PageSignals) : Option MatchResult :=
  match e.must_not with
  | some mn =>
    if mn.isTruthy then
      (if (matchDict mn sig).matched then some (matchDict mn sig) else none)
    else none
  | none => none

/-- The fallback (`fallback_expect`) tier's hit, if any: the tier is present
and Python-truthy, and its dictionary matches the page. -/
def fallbackHit (e : Expectation) (sig : PageSignals) : Option MatchResult :=
  match e.fallback_expect with
  | some fb =>
    if fb.isTruthy then
      (if (matchDict fb sig).matched then some (matchDict fb sig) else none)
    else none
  | none => none

/-- `_check_quality` of `probe.py`: forbidden tier first (match ⇒ blocked),
then the primary expectation through `to_dict` (match ⇒ optimal), then the
fallback tier (match ⇒ suboptimal), else blocked carrying the primary
check's failure reason. -/
def check_quality (e : Expectation) (sig : PageSignals) : ProbeOutcome :=
  match forbiddenHit e sig with
  | some m => ⟨false, some m.reason, sig.status, "blocked"⟩
  | none =>
    let m := matchDict e.to_dict sig
    if m.matched then ⟨true, some "满足期望条件", sig.status, "optimal"⟩
    else
      match fallbackHit e sig with
      | some r => ⟨true, some r.reason, sig.status, "suboptimal"⟩
      | none => ⟨false, some m.reason, sig.status, "blocked"⟩

/-- C5: classification is a strict tier chain: a present, truthy and
matching `must_not` tier yields blocked with `ok = false` whatever the
primary and fallback tiers hold; otherwise a matching primary expectation
yields optimal with `ok = true`; otherwise a present, truthy and matching
fallback tier yields suboptimal with `ok = true` and the fallback's match
reason; otherwise the outcome is blocked with `ok = false` and exactly the
primary check's failure reason. -/
theorem check_quality_spec :
    (∀ (e : Expectation) (sig : PageSignals) (mn : MatchConfig),
      e.must_not = some mn → mn.isTruthy = true → (matchDict mn sig).matched = true →
      check_quality e sig = ⟨false, some (matchDict mn sig).reason, sig.status, "blocked"⟩) ∧
    (∀ (e : Expectation) (sig : PageSignals), forbiddenHit e sig = none →
      (matchDict e.to_dict sig).matched = true →
      check_quality e sig = ⟨true, some "满足期望条件", sig.status, "optimal"⟩) ∧
    (∀ (e : Expectation) (sig : PageSignals) (fb : MatchConfig),
      forbiddenHit e sig = none → (matchDict e.to_dict sig).matched = false →
      e.fallback_expect = some fb → fb.isTruthy = true → (matchDict fb sig).matched = true →
      check_quality e sig = ⟨true, some (matchDict fb sig).reason, sig.status, "suboptimal"⟩) ∧
    (∀ (e : Expectation) (sig : PageSignals), forbiddenHit e sig = none →
      (matchDict e.to_dict sig).matched = false → fallbackHit e sig = none →
      check_quality e sig = ⟨false, some (matchDict e.to_dict sig).reason, sig.status, "blocked"⟩) := by
  refine ⟨?_, ?_, ?_, ?_⟩
  · intro e sig mn hmn htr hm
    have hhit : forbiddenHit e sig = some (matchDict mn sig) := by
      simp [forbiddenHit, hmn, htr, hm]
    simp [check_quality, hhit]
  · intro e sig hno hm
    simp [check_quality, hno, hm]
  · intro e sig fb hno hm hfb htr hfm
    have hhit : fallbackHit e sig = some (matchDict fb sig) := by
      simp [fallbackHit, hfb, htr, hfm]
    simp [check_quality, hno, hm, hhit]
  · intro e sig hno hm hfb
    simp [check_quality, hno, hm, hfb]

/-- Witness for C5: a forbidden tier looking for the text `denied` matches
a page whose extracted text contains it, so the probe is blocked whatever
the primary expectation says. -/
theorem check_quality_spec_witness :
    check_quality
        ⟨some 200, none, none, none, some { contains := some (OneOrMany.single "denied") }⟩
        ⟨some 200, "t", "access denied", fun s _ => ⟨false, s⟩⟩ =
      ⟨false,
        some (matchDict { contains := some (OneOrMany.single "denied") }
          ⟨some 200, "t", "access denied", fun s _ => ⟨false, s⟩⟩).reason,
        some 200, "blocked"⟩ :=
  check_quality_spec.1
    ⟨some 200, none, none, none, some { contains := some (OneOrMany.single "denied") }⟩
    ⟨some 200, "t", "access denied", fun s _ => ⟨false, s⟩⟩
    { contains := some (OneOrMany.single "denied") } rfl (by decide) (by decide)

/-- C10 counterexample: the matcher does NOT ignore every key other than
status/title/selector/contains — the `text` key is read as the selector's
companion and changes the result.  Against `sigDemo` (whose selector engine
matches a bare selector but finds no text pattern, as a real page whose
selector exists without the sought text would), the configuration
`selector=p, text=zzz` fails while `selector=p` alone matches. -/
theorem matchDict_text_key_counterexample :
    matchDict { selector := some "p", text := some (OneOrMany.single "zzz") } sigDemo ≠
      matchDict { selector := some "p" } sigDemo ∧
    (matchDict { selector := some "p", text := some (OneOrMany.single "zzz") } sigDemo).matched
        = false ∧
    (matchDict { selector := some "p" } sigDemo).matched = true := by
  refine ⟨by decide, by decide, by decide⟩

/-- C10 (amended): the matcher inspects only the keys status, title,
selector, contains and the selector companion key text (read only when a
selector is configured); the `body` key that `Expectation.to_dict` emits is
never inspected, so an expectation whose only configured field is `body`
(no forbidden, no fallback tier) vacuously matches and classifies as
optimal on any page. -/
theorem matchDict_ignores_body :
    (∀ (cfg : MatchConfig) (sig : PageSignals) (b : Option String),
      matchDict { cfg with body := b } sig = matchDict cfg sig) ∧
    (∀ (cfg : MatchConfig) (sig : PageSignals) (t : Option (OneOrMany String)),
      cfg.selector = none → matchDict { cfg with text := t } sig = matchDict cfg sig) ∧
    (∀ (b : Option String) (sig : PageSignals),
      check_quality ⟨none, none, b, none, none⟩ sig =
        ⟨true, some "满足期望条件", sig.status, "optimal"⟩) := by
  refine ⟨fun cfg sig b => rfl, ?_, ?_⟩
  · intro cfg sig t h
    obtain ⟨st, ti, se, tx, co, bo⟩ := cfg
    simp only at h
    subst h
    rfl
  · intro b sig
    cases b with
    | none => rfl
    | some s =>
      by_cases hs : s = ""
      · subst hs
        rfl
      · simp [check_quality, forbiddenHit, fallbackHit, Expectation.to_dict,
          matchDict, statusStep, titleStep, selectorStep, containsStep,
          Except.bind, hs, String.intercalate]

/-- Witness for C10 (amended): with no selector configured, adding a text
key changes nothing, and a body-only expectation classifies `sigDemo` as
optimal. -/
theorem matchDict_ignores_body_witness :
    matchDict { text := some (OneOrMany.single "zzz"), body := some "k" } sigDemo =
      matchDict { body := some "k" } sigDemo ∧
    check_quality ⟨none, none, some "k", none, none⟩ sigDemo =
      ⟨true, some "满足期望条件", some 200, "optimal"⟩ :=
  ⟨matchDict_ignores_body.2.1 { body := some "k" } sigDemo
      (some (OneOrMany.single "zzz")) rfl,
    matchDict_ignores_body.2.2 (some "k") sigDemo⟩

/-! ## State manager (`src/scripts/modules/state.py`) -/

/-- `ProbeState` of `state.py`: the persisted per-probe record. -/
structure ProbeState where
  probe_name : String
  quality : String
  outbound : Option String := none
  last_check_time : Option String := none
  reason : Option String := none
  deriving DecidableEq

/-- `should_skip_suboptimal` of `state.py`.  The state table is the
in-memory name-to-record mapping; `parseIso` abstracts
`datetime.fromisoformat` (the parsed instant in seconds since an arbitrary
epoch, `none` when parsing raises), `now` abstracts `datetime.now()` in the
same scale.  Elapsed hours are `(now - t) / 3600`, and skipping requires
that to be strictly below `skip_hours`; a missing record, a non-suboptimal
quality, a missing or empty (Python-falsy) timestamp, or a parse failure
all answer false. -/
def should_skip_suboptimal (states : List (String × ProbeState))
    (parseIso : String → Option ℚ) (now : ℚ)
    (probe_name : String) (skip_hours : ℤ) : Bool :=
  match states.lookup probe_name with
  | none => false
  | some st =>
    if st.quality ≠ "suboptimal" then false
    else
      match st.last_check_time with
      | none => false
      | some ts =>
        if ts = "" then false
        else
          match parseIso ts with
          | none => false
          | some t => decide ((now - t) / 3600 < (skip_hours : ℚ))

/-- C9: provided the empty string is not a parsable timestamp (as for
`datetime.fromisoformat`), `should_skip_suboptimal` answers true exactly
when a stored record exists, its quality is exactly suboptimal, a
last-check timestamp exists and parses, and the elapsed time is strictly
less than `skip_hours` hours; so it is false with no prior state, false on
parse failure, and false once elapsed time reaches the threshold. -/
theorem should_skip_suboptimal_spec (states : List (String × ProbeState))
    (parseIso : String → Option ℚ) (now : ℚ) (name : String) (h : ℤ)
    (hempty : parseIso "" = none) :
    should_skip_suboptimal states parseIso now name h = true ↔
      ∃ st, states.lookup name = some st ∧ st.quality = "suboptimal" ∧
        ∃ ts, st.last_check_time = some ts ∧
          ∃ t, parseIso ts = some t ∧ (now - t) / 3600 < (h : ℚ) := by
  constructor
  · intro hs
    rw [should_skip_suboptimal] at hs
    split at hs
    · cases hs
    next st hl =>
      split at hs
      · cases hs
      next hq' =>
        have hq : st.quality = "suboptimal" := not_not.1 (by simpa using hq')
        split at hs
        · cases hs
        next ts hts =>
          split at hs
          · cases hs
          next he =>
            split at hs
            · cases hs
            next t hp =>
              exact ⟨st, hl, hq, ts, hts, t, hp, of_decide_eq_true hs⟩
  · rintro ⟨st, hl, hq, ts, hts, t, hp, hlt⟩
    have hne : ts ≠ "" := by
      intro he
      rw [he, hempty] at hp
      cases hp
    simp [should_skip_suboptimal, hl, hq, hts, hp, hne]
    exact hlt

/-- Witness for C9: a suboptimal record checked half an hour ago is skipped
under a one-hour cool-down. -/
theorem should_skip_suboptimal_spec_witness :
    should_skip_suboptimal
        [("probe1", ⟨"probe1", "suboptimal", none, some "T1", none⟩)]
        (fun s => if s = "T1" then some 0 else none) 1800 "probe1" 1 = true :=
  (should_skip_suboptimal_spec
      [("probe1", ⟨"probe1", "suboptimal", none, some "T1", none⟩)]
      (fun s => if s = "T1" then some 0 else none) 1800 "probe1" 1 rfl).mpr
    ⟨⟨"probe1", "suboptimal", none, some "T1", none⟩, rfl, rfl, "T1", rfl, 0, rfl,
      by norm_num⟩

/-! ## Quality-aware candidate search (spec §4.3)

The snapshot's `src/scripts/proxy_manager.py` is the older generation that
predates quality levels; the quality-aware search the spec describes is
missing from `src/` (only its building blocks — the quality-tagged
`ProbeOutcome`, `QUALITY_LEVELS`, the state manager and alert policy — are
present in `modules/`).  The search is therefore modelled from the spec. -/

/-- The three quality levels as an enum, ordinals as in `QUALITY_LEVELS`. -/
inductive Quality where
  | optimal
  | suboptimal
  | blocked
  deriving DecidableEq

/-- Modelled from the spec: the candidate loop of the quality-aware search
(spec §4.3 steps 2–4), missing from the snapshot under `src/`.  `test c =
none` models a failed test-rule installation (the candidate is skipped and
the scan continues); `some q` is the probed quality.  An optimal probe
selects the candidate and stops immediately; a suboptimal probe is recorded
as best-suboptimal only when `accept` holds and none is recorded yet; the
scan otherwise continues, and on exhaustion the recorded best-suboptimal is
selected only when `accept` holds.  Returns the selection and the list of
candidates actually probed, in order. -/
def searchCandidates (accept : Bool) (test : String → Option Quality)
    (bestSub : Option String) : List String → Option String × List String
  | [] => (if accept then bestSub else none, [])
  | c :: rest =>
    match test c with
    | none => searchCandidates accept test bestSub rest
    | some .optimal => (some c, [c])
    | some .suboptimal =>
      let b := if accept && bestSub.isNone then some c else bestSub
      let r := searchCandidates accept test b rest
      (r.1, c :: r.2)
    | some .blocked =>
      let r := searchCandidates accept test bestSub rest
      (r.1, c :: r.2)

/-- Modelled from the spec: the search entry point over a candidate list;
`accept` is `acceptSuboptimal`. -/
def search (accept : Bool) (test : String → Option Quality)
    (cands : List String) : Option String × List String :=
  searchCandidates accept test none cands

/-- Modelled from the spec: `findOptimalCandidate` = search with
`acceptSuboptimal = false`. -/
def find_optimal_candidate (test : String → Option Quality)
    (cands : List String) : Option String × List String :=
  search false test cands

/-- Modelled from the spec: `recoverWithCandidates` = search with
`acceptSuboptimal = true`. -/
def recover_with_candidates (test : String → Option Quality)
    (cands : List String) : Option String × List String :=
  search true test cands

/-- The first candidate in the list that tests at quality `q`. -/
def firstWith (test : String → Option Quality) (q : Quality) : List String → Option String
  | [] => none
  | c :: rest => if test c = some q then some c else firstWith test q rest

theorem firstWith_eq_none {test : String → Option Quality} {q : Quality}
    {cands : List String} (h : ∀ c ∈ cands, test c ≠ some q) :
    firstWith test q cands = none := by
  induction cands with
  | nil => rfl
  | cons x xs ih =>
    rw [firstWith, if_neg (h x (List.mem_cons_self _ _))]
    exact ih (fun c hc => h c (List.mem_cons_of_mem _ hc))

theorem firstWith_isSome {test : String → Option Quality} {q : Quality}
    {cands : List String} (h : ∃ c ∈ cands, test c = some q) :
    (firstWith test q cands).isSome = true := by
  induction cands with
  | nil => simp at h
  | cons x xs ih =>
    rw [firstWith]
    by_cases hx : test x = some q
    · rw [if_pos hx]
      rfl
    · rw [if_neg hx]
      obtain ⟨c, hc, hq⟩ := h
      rcases List.mem_cons.1 hc with rfl | hc
      · exact absurd hq hx
      · exact ih ⟨c, hc, hq⟩

theorem firstWith_eq_some {test : String → Option Quality} {q : Quality}
    {cands : List String} {c : String} (h : firstWith test q cands = some c) :
    ∃ l₁ l₂, cands = l₁ ++ c :: l₂ ∧ test c = some q ∧ ∀ x ∈ l₁, test x ≠ some q := by
  induction cands with
  | nil => exact Option.noConfusion h
  | cons x xs ih =>
    rw [firstWith] at h
    by_cases hx : test x = some q
    · rw [if_pos hx] at h
      obtain rfl : x = c := Option.some.inj h
      exact ⟨[], xs, rfl, hx, by simp⟩
    · rw [if_neg hx] at h
      obtain ⟨l₁, l₂, rfl, hq, hno⟩ := ih h
      refine ⟨x :: l₁, l₂, rfl, hq, fun y hy => ?_⟩
      rcases List.mem_cons.1 hy with rfl | hy
      · exact hx
      · exact hno y hy

theorem searchCandidates_fst_some_best {accept : Bool} {test : String → Option Quality}
    {b : String} {cands : List String}
    (hno : ∀ c ∈ cands, test c ≠ some Quality.optimal) :
    (searchCandidates accept test (some b) cands).1 = if accept then some b else none := by
  induction cands with
  | nil => rfl
  | cons c rest ih =>
    have hrest : ∀ x ∈ rest, test x ≠ some Quality.optimal :=
      fun x hx => hno x (List.mem_cons_of_mem _ hx)
    cases ht : test c with
    | none =>
      simp only [searchCandidates, ht]
      exact ih hrest
    | some q =>
      cases q with
      | optimal => exact absurd ht (hno c (List.mem_cons_self _ _))
      | suboptimal =>
        simp [searchCandidates, ht]
        simpa using ih hrest
      | blocked =>
        simp only [searchCandidates, ht]
        exact ih hrest

theorem searchCandidates_fst_none_best {accept : Bool} {test : String → Option Quality}
    {cands : List String}
    (hno : ∀ c ∈ cands, test c ≠ some Quality.optimal) :
    (searchCandidates accept test none cands).1 =
      if accept then firstWith test Quality.suboptimal cands else none := by
  induction cands with
  | nil => cases accept <;> rfl
  | cons c rest ih =>
    have hrest : ∀ x ∈ rest, test x ≠ some Quality.optimal :=
      fun x hx => hno x (List.mem_cons_of_mem _ hx)
    cases ht : test c with
    | none =>
      simp only [searchCandidates, ht, firstWith]
      rw [ih hrest]
      cases accept <;> simp
    | some q =>
      cases q with
      | optimal => exact absurd ht (hno c (List.mem_cons_self _ _))
      | suboptimal =>
        cases accept with
        | true =>
          simp only [searchCandidates, ht, Option.isNone_none, Bool.and_true, if_true,
            firstWith, if_pos rfl]
          rw [searchCandidates_fst_some_best hrest]
          simp [firstWith, ht]
        | false =>
          simp only [searchCandidates, ht, Bool.false_and, Bool.false_eq_true, if_false]
          rw [ih hrest]
          simp
      | blocked =>
        simp only [searchCandidates, ht, firstWith]
        rw [ih hrest]
        cases accept <;> simp

theorem searchCandidates_probed_no_optimal (accept : Bool)
    (test : String → Option Quality) (bestSub : Option String) (cands : List String)
    (hno : ∀ c ∈ cands, test c ≠ some Quality.optimal) :
    (searchCandidates accept test bestSub cands).2 =
      cands.filter (fun c => (test c).isSome) := by
  induction cands generalizing bestSub with
  | nil => simp [searchCandidates]
  | cons c rest ih =>
    have hrest : ∀ x ∈ rest, test x ≠ some Quality.optimal :=
      fun x hx => hno x (List.mem_cons_of_mem _ hx)
    cases ht : test c with
    | none =>
      simp only [searchCandidates, ht, List.filter_cons, Option.isSome_none,
        Bool.false_eq_true, if_false]
      exact ih bestSub hrest
    | some q =>
      cases q with
      | optimal => exact absurd ht (hno c (List.mem_cons_self _ _))
      | suboptimal =>
        simp only [searchCandidates, ht, List.filter_cons, Option.isSome_some, if_true]
        rw [ih _ hrest]
      | blocked =>
        simp only [searchCandidates, ht, List.filter_cons, Option.isSome_some, if_true]
        rw [ih _ hrest]

theorem searchCandidates_first_optimal (accept : Bool)
    (test : String → Option Quality) (bestSub : Option String)
    (l₁ : List String) (c : String) (l₂ : List String)
    (hno : ∀ x ∈ l₁, test x ≠ some Quality.optimal)
    (hc : test c = some Quality.optimal) :
    searchCandidates accept test bestSub (l₁ ++ c :: l₂) =
      (some c, l₁.filter (fun x => (test x).isSome) ++ [c]) := by
  induction l₁ generalizing bestSub with
  | nil => simp [searchCandidates, hc]
  | cons x xs ih =>
    have hxs : ∀ y ∈ xs, test y ≠ some Quality.optimal :=
      fun y hy => hno y (List.mem_cons_of_mem _ hy)
    cases ht : test x with
    | none =>
      simp only [List.cons_append, searchCandidates, ht, List.filter_cons,
        Option.isSome_none, Bool.false_eq_true, if_false]
      exact ih bestSub hxs
    | some q =>
      cases q with
      | optimal => exact absurd ht (hno x (List.mem_cons_self _ _))
      | suboptimal =>
        simp only [List.cons_append, searchCandidates, ht, List.filter_cons,
          Option.isSome_some, if_true, List.append_eq]
        rw [ih _ hxs]
      | blocked =>
        simp only [List.cons_append, searchCandidates, ht, List.filter_cons,
          Option.isSome_some, if_true, List.append_eq]
        rw [ih _ hxs]

theorem eq_none_of_firstWith {test : String → Option Quality} {q : Quality}
    {cands : List String} (h : firstWith test q cands = none) :
    ∀ c ∈ cands, test c ≠ some q := by
  induction cands with
  | nil =>
    intro c hc
    simp at hc
  | cons x xs ih =>
    rw [firstWith] at h
    by_cases hx : test x = some q
    · rw [if_pos hx] at h
      exact Option.noConfusion h
    · rw [if_neg hx] at h
      intro c hc
      rcases List.mem_cons.1 hc with rfl | hc
      · exact hx
      · exact ih h c hc

/-- C1: with `acceptSuboptimal = true` (`recoverWithCandidates`), when no
candidate tests optimal and every candidate's test rule installs, the
search scans the whole candidate list (the probed list is the full list)
and selects the first candidate that tested suboptimal, which exists when
some candidate tests suboptimal; and in either mode the selection is the
first optimal if one exists, else the first suboptimal when
`acceptSuboptimal` and one exists, else none. -/
theorem recover_full_scan_first_suboptimal :
    (∀ (test : String → Option Quality) (cands : List String),
      (∀ c ∈ cands, test c ≠ some Quality.optimal) →
      (∀ c ∈ cands, (test c).isSome = true) →
      (∃ c ∈ cands, test c = some Quality.suboptimal) →
      recover_with_candidates test cands =
        (firstWith test Quality.suboptimal cands, cands) ∧
      (firstWith test Quality.suboptimal cands).isSome = true) ∧
    (∀ (accept : Bool) (test : String → Option Quality) (cands : List String),
      firstWith test Quality.optimal cands = none →
      (search accept test cands).1 =
        (if accept then firstWith test Quality.suboptimal cands else none)) ∧
    (∀ (accept : Bool) (test : String → Option Quality) (cands : List String) (c : String),
      firstWith test Quality.optimal cands = some c →
      (search accept test cands).1 = some c) := by
  refine ⟨?_, ?_, ?_⟩
  · intro test cands hno hins hsub
    refine ⟨?_, firstWith_isSome hsub⟩
    have h1 := @searchCandidates_fst_none_best true test cands hno
    have h2 := searchCandidates_probed_no_optimal true test none cands hno
    have h3 : List.filter (fun c => (test c).isSome) cands = cands :=
      List.filter_eq_self.2 (fun c hc => hins c hc)
    calc recover_with_candidates test cands
        = ((searchCandidates true test none cands).1,
            (searchCandidates true test none cands).2) := rfl
      _ = (firstWith test Quality.suboptimal cands, cands) := by
          rw [h1, h2, h3, if_pos rfl]
  · intro accept test cands h
    exact searchCandidates_fst_none_best (eq_none_of_firstWith h)
  · intro accept test cands c h
    obtain ⟨l₁, l₂, rfl, hq, hno⟩ := firstWith_eq_some h
    show (searchCandidates accept test none (l₁ ++ c :: l₂)).1 = some c
    rw [searchCandidates_first_optimal accept test none l₁ c l₂ hno hq]

/-- The quality outcomes of the C1 witness: A blocked, B suboptimal, C
blocked, everything else an install failure. -/
def testC1 : String → Option Quality := fun c =>
  if c = "A" then some Quality.blocked
  else if c = "B" then some Quality.suboptimal
  else if c = "C" then some Quality.blocked
  else none

/-- Witness for C1: over `[A(blocked), B(suboptimal), C(blocked)]`,
`recoverWithCandidates` probes all three candidates and returns B. -/
theorem recover_full_scan_first_suboptimal_witness :
    recover_with_candidates testC1 ["A", "B", "C"] = (some "B", ["A", "B", "C"]) := by
  have h := (recover_full_scan_first_suboptimal.1 testC1 ["A", "B", "C"]
    (by decide) (by decide) ⟨"B", by decide, by decide⟩).1
  rw [h]
  decide

/-- C2: the search stops at the first candidate that tests optimal: over
any candidate list `l₁ ++ c :: l₂` where nothing in `l₁` tests optimal and
`c` does, the search (either mode) selects `c`, and the probed list is the
installable part of `l₁` followed by `c` — the candidates after `c` are
never probed. -/
theorem search_stops_at_first_optimal :
    ∀ (accept : Bool) (test : String → Option Quality) (l₁ : List String) (c : String)
      (l₂ : List String),
      (∀ x ∈ l₁, test x ≠ some Quality.optimal) → test c = some Quality.optimal →
      search accept test (l₁ ++ c :: l₂) =
        (some c, l₁.filter (fun x => (test x).isSome) ++ [c]) :=
  fun accept test l₁ c l₂ hno hc =>
    searchCandidates_first_optimal accept test none l₁ c l₂ hno hc

/-- The quality outcomes of the C2 witness: A suboptimal, B optimal, C
optimal. -/
def testC2 : String → Option Quality := fun c =>
  if c = "A" then some Quality.suboptimal
  else if c = "B" then some Quality.optimal
  else if c = "C" then some Quality.optimal
  else none

/-- Witness for C2: over `[A(suboptimal), B(optimal), C(optimal)]`,
`findOptimalCandidate` selects B and probes only A and B — C is never
probed. -/
theorem search_stops_at_first_optimal_witness :
    find_optimal_candidate testC2 ["A", "B", "C"] = (some "B", ["A", "B"]) := by
  have h := search_stops_at_first_optimal false testC2 ["A"] "B" ["C"]
    (by decide) (by decide)
  rw [show find_optimal_candidate testC2 ["A", "B", "C"] =
      search false testC2 (["A"] ++ "B" :: ["C"]) from rfl, h]
  decide

/-! ## Blocked-branch orchestration (spec §4.6) -/

/-- The persisted update produced by handling a blocked probe. -/
structure PersistedUpdate where
  quality : String
  outbound : Option String
  reason : Option String
  deriving DecidableEq

/-- The observable effects of handling one blocked probe: what is
persisted, and which alerts go out. -/
structure BlockedHandling where
  persisted : PersistedUpdate
  switch_alert : Bool
  failure_alert : Bool
  deriving DecidableEq

/-- Modelled from the spec: the blocked branch of the per-probe
orchestration loop (spec §4.6), missing from the snapshot under `src/`
(the snapshot's `ProbeManager.run` predates quality levels, state
persistence and alert gating).  A found replacement persists optimal with
the new outbound and sends the switch-success alert unconditionally; no
replacement persists blocked with reason "all candidates exhausted" and
sends the failure alert iff the alert policy `should_send_alert` (from
`src/scripts/modules/config.py`) fires for blocked at the probe's
threshold. -/
def handle_blocked (found : Option String) (threshold : String) : BlockedHandling :=
  match found with
  | some c => ⟨⟨"optimal", some c, none⟩, true, false⟩
  | none =>
    ⟨⟨"blocked", none, some "all candidates exhausted"⟩, false,
      should_send_alert "blocked" threshold⟩

/-- C3: on a blocked observation, a found replacement always sends the
switch-success alert (for every threshold: not gated by the alert policy)
and persists optimal with the new outbound; no replacement sends the
failure alert iff `should_send_alert("blocked", threshold)` holds and
persists blocked with reason "all candidates exhausted". -/
theorem handle_blocked_spec :
    (∀ (c : String) (threshold : String),
      (handle_blocked (some c) threshold).switch_alert = true ∧
      (handle_blocked (some c) threshold).persisted = ⟨"optimal", some c, none⟩) ∧
    (∀ threshold : String,
      (handle_blocked none threshold).switch_alert = false ∧
      ((handle_blocked none threshold).failure_alert = true ↔
        should_send_alert "blocked" threshold = true) ∧
      (handle_blocked none threshold).persisted =
        ⟨"blocked", none, some "all candidates exhausted"⟩) :=
  ⟨fun _ _ => ⟨rfl, rfl⟩, fun _ => ⟨rfl, Iff.rfl, rfl⟩⟩

/-! ## Run-loop error propagation (`src/scripts/proxy_manager.py`) -/

/-- One candidate trial inside `_recover_with_candidates`: whether
`add_routing_rule` for the test rule succeeds, and whether the Playwright
check through the test proxy comes back ok.  (`remove_routing_rule`
failures are caught at every call site and so have no observable effect.) -/
structure CandTrial where
  name : String
  add_test_ok : Bool
  check_ok : Bool
  deriving DecidableEq

/-- One probe's environment for a run of `ProbeManager.run`: the production
check result, the resolved candidate trials in order, and whether the
`add_routing_rule` call for the production rule inside `_promote_outbound`
succeeds. -/
structure ProbeEnv where
  name : String
  prod_ok : Bool
  trials : List CandTrial
  add_prod_ok : Bool
  deriving DecidableEq

/-- `_recover_with_candidates` of `proxy_manager.py` through the trial
outcomes: a failed test-rule installation is caught, logs and skips to the
next candidate; a failed check continues; a passing check promotes — and
the uncaught `add_routing_rule` inside `_promote_outbound` raises
`XrayAPIError` out of the search when the production install fails
(`Except.error` is the escaping exception). -/
def recover (trials : List CandTrial) (add_prod_ok : Bool) :
    Except Unit (Option String) :=
  match trials with
  | [] => .ok none
  | t :: rest =>
    if t.add_test_ok then
      (if t.check_ok then
        (if add_prod_ok then .ok (some t.name) else .error ())
      else recover rest add_prod_ok)
    else recover rest add_prod_ok

/-- `ProbeManager.run` of `proxy_manager.py`: probes processed in order; an
ok production check moves on to the next probe; otherwise recovery runs,
and an exception escaping it aborts the whole loop.  Returns the names of
the probes fully processed, in order. -/
def ProbeManager_run (probes : List ProbeEnv) : Except Unit (List String) :=
  match probes with
  | [] => .ok []
  | p :: rest =>
    if p.prod_ok then
      (ProbeManager_run rest).map (fun names => p.name :: names)
    else
      match recover p.trials p.add_prod_ok with
      | .error e => .error e
      | .ok _ => (ProbeManager_run rest).map (fun names => p.name :: names)

/-- C4 counterexample: probe p1's candidate c1 installs its test rule and
checks ok, but the production-rule installation during promotion fails; the
`XrayAPIError` escapes `_promote_outbound` (its `add_routing_rule` call is
not wrapped in try/except) and aborts the run, so probe p2 is never
processed — refuting "a failure confined to one probe (including a
control-plane error while installing that probe's rules) never aborts the
processing of the subsequent probes". -/
theorem run_aborts_on_promote_failure :
    ProbeManager_run
        [⟨"p1", false, [⟨"c1", true, true⟩], false⟩, ⟨"p2", true, [], true⟩] =
      .error () := rfl

theorem recover_ok (trials : List CandTrial) :
    ∃ r, recover trials true = .ok r := by
  induction trials with
  | nil => exact ⟨none, rfl⟩
  | cons t rest ih =>
    simp only [recover]
    by_cases h1 : t.add_test_ok = true
    · rw [if_pos h1]
      by_cases h2 : t.check_ok = true
      · rw [if_pos h2]
        exact ⟨some t.name, by simp⟩
      · rw [if_neg h2]
        exact ih
    · rw [if_neg h1]
      exact ih

/-- C4 (amended): failures confined to one probe's production check,
test-rule installation or candidate checks never abort subsequent probes —
whenever every probe's promotion install succeeds the run processes every
probe in order, whatever the other failures; but a control-plane error
while installing the production rule during promotion propagates and
aborts the run. -/
theorem run_completes_when_promotion_succeeds :
    ∀ probes : List ProbeEnv, (∀ p ∈ probes, p.add_prod_ok = true) →
      ProbeManager_run probes = .ok (probes.map (fun p => p.name)) := by
  intro probes h
  induction probes with
  | nil => rfl
  | cons p rest ih =>
    have hp : p.add_prod_ok = true := h p (List.mem_cons_self _ _)
    have hrest := ih (fun q hq => h q (List.mem_cons_of_mem _ hq))
    obtain ⟨r, hr⟩ := recover_ok p.trials
    by_cases hprod : p.prod_ok = true
    · simp [ProbeManager_run, hprod, hrest, Except.map]
    · simp [ProbeManager_run, hprod, hp, hr, hrest, Except.map]

/-- Witness for C4 (amended): a run where p1's production check fails, its
first candidate's test rule fails to install and its second candidate's
check fails, and p2's production check fails with no candidates at all,
still processes all three probes. -/
theorem run_completes_when_promotion_succeeds_witness :
    ProbeManager_run
        [⟨"p1", false, [⟨"c1", false, false⟩, ⟨"c2", true, false⟩], true⟩,
          ⟨"p2", false, [], true⟩, ⟨"p3", true, [], true⟩] =
      .ok ["p1", "p2", "p3"] := by
  rw [run_completes_when_promotion_succeeds
    [⟨"p1", false, [⟨"c1", false, false⟩, ⟨"c2", true, false⟩], true⟩,
      ⟨"p2", false, [], true⟩, ⟨"p3", true, [], true⟩] (by decide)]
  rfl
